import Mathlib

/-!
Verification of the bread-dough solver core of `peculiarz.one`.

Sources embedded here:
* `crates/bread-world-models/src/lib.rs` — `Ingredient`, `Dough`, the
  composition predicates, and the hydratation/water-ratio conversions;
* `crates/bread-world/src/lib.rs` — `Target`, `DoughProblem`, `DoughSolution`
  and `solve_impl` (construction of the linear program handed to the external
  `ellp` solver).

Numeric modelling: Rust `f64` quantities (masses in grams, dimensionless
ratios) are embedded as exact rationals `ℚ`; rounding error is idealised
away.  Where the value class of a float matters (infinities produced by a
division by zero, NaN, the guard assertions of the conversion helpers) we
use the type `F` below, which carries the finite/infinite/NaN classes with
IEEE-754 comparison and division semantics (negative zero is identified
with zero, overflow to infinity is not modelled).

The external LP solver (`ellp`, a dependency of this repository, not part
of it) is modelled from the spec, section 4.4: it is an arbitrary function
returning either an optimal point or an infeasibility/unboundedness signal,
constrained by `SolverOk`, which states that any returned point satisfies
every variable bound and every constraint of the submitted problem.
-/

namespace BreadWorld

/-- Value classes of an IEEE-754 double with exact (rational) finite values:
a finite value, the two infinities, or NaN.  Negative zero is identified
with zero and overflow is not modelled. -/
inductive F where
  | fin : ℚ → F
  | posInf : F
  | negInf : F
  | nan : F
deriving DecidableEq

/-- IEEE `>=` comparison: any comparison involving NaN is false. -/
def F.geb : F → F → Bool
  | .nan, _ => false
  | _, .nan => false
  | .posInf, _ => true
  | .fin _, .posInf => false
  | .fin a, .fin b => decide (b ≤ a)
  | .fin _, .negInf => true
  | .negInf, .negInf => true
  | .negInf, _ => false

/-- IEEE `<=` comparison: any comparison involving NaN is false. -/
def F.leb : F → F → Bool
  | .nan, _ => false
  | _, .nan => false
  | .negInf, _ => true
  | .posInf, .posInf => true
  | .posInf, _ => false
  | .fin a, .fin b => decide (a ≤ b)
  | .fin _, .posInf => true
  | .fin _, .negInf => false

/-- IEEE `<` comparison: any comparison involving NaN is false. -/
def F.ltb : F → F → Bool
  | .nan, _ => false
  | _, .nan => false
  | .negInf, .negInf => false
  | .negInf, _ => true
  | .posInf, _ => false
  | .fin a, .fin b => decide (a < b)
  | .fin _, .posInf => true
  | .fin _, .negInf => false

/-- IEEE addition on value classes; finite addition is exact. -/
def F.add : F → F → F
  | .nan, _ => .nan
  | _, .nan => .nan
  | .posInf, .negInf => .nan
  | .negInf, .posInf => .nan
  | .posInf, _ => .posInf
  | _, .posInf => .posInf
  | .negInf, _ => .negInf
  | _, .negInf => .negInf
  | .fin a, .fin b => .fin (a + b)

/-- IEEE negation on value classes. -/
def F.neg : F → F
  | .nan => .nan
  | .posInf => .negInf
  | .negInf => .posInf
  | .fin a => .fin (-a)

/-- IEEE subtraction on value classes. -/
def F.sub (a b : F) : F := a.add b.neg

/-- IEEE division on value classes; finite division is exact, a nonzero
finite value divided by zero gives a signed infinity, and `0 / 0` gives
NaN (negative zero is not modelled, so the sign of a zero divisor is
always positive). -/
def F.div : F → F → F
  | .nan, _ => .nan
  | _, .nan => .nan
  | .posInf, .posInf => .nan
  | .posInf, .negInf => .nan
  | .negInf, .posInf => .nan
  | .negInf, .negInf => .nan
  | .posInf, .fin b => if 0 ≤ b then .posInf else .negInf
  | .negInf, .fin b => if 0 ≤ b then .negInf else .posInf
  | .fin _, .posInf => .fin 0
  | .fin _, .negInf => .fin 0
  | .fin a, .fin b =>
      if b = 0 then (if a = 0 then .nan else if 0 < a then .posInf else .negInf)
      else .fin (a / b)

/-- Whether a float value class is a finite number. -/
def F.isFinite : F → Bool
  | .fin _ => true
  | _ => false

/-- From `crates/bread-world-models/src/lib.rs`, `hydratation_to_water_ratio`:
`assert!(h >= 0.)`, `assert!(h != f64::INFINITY)`, then `h / (h + 1)`.
A failed assertion (a panic in Rust) is `none`. -/
def hydratation_to_water_ratio (hydratation : F) : Option F :=
  if hydratation.geb (.fin 0) then
    if hydratation = .posInf then none
    else some (hydratation.div (hydratation.add (.fin 1)))
  else none

/-- From `crates/bread-world-models/src/lib.rs`, `water_ratio_to_hydratation`:
`assert!(w >= 0.)`, `assert!(w <= 1.)`, then `w / (1 - w)`.
A failed assertion (a panic in Rust) is `none`. -/
def water_ratio_to_hydratation (water_ratio : F) : Option F :=
  if water_ratio.geb (.fin 0) then
    if water_ratio.leb (.fin 1) then
      some (water_ratio.div ((F.fin 1).sub water_ratio))
    else none
  else none

/-- The 0.1 % relative-tolerance comparison used by the repository's
`debug_assert_f64_eq!`/`assert_f64_eq!` macros:
`a == b || (a - a*0.001 < b && a + a*0.001 > b)`. -/
def approx_eq (a b : ℚ) : Prop :=
  a = b ∨ (a - a * (1 / 1000) < b ∧ a + a * (1 / 1000) > b)

/-- `IngredientCategory` of `crates/bread-world-models/src/lib.rs`. -/
inductive IngredientCategory where
  | Flour | Leavener | Liquid | Fat | Nuts | Seeds | Salt | Mixed
deriving DecidableEq

/-- `IngredientKind` of `crates/bread-world-models/src/lib.rs`. -/
inductive IngredientKind where
  | WhiteFlourUnbleached | WhiteFlourBleached | WholeWheatFlour
  | WhiteRyeFlour | MediumRyeFlour | DarkRyeFlour | PumpernickelFlour
  | GlutenPowder
  | SourdoughStarter | ActiveDryYeast | InstantDryYeast | FreshYeast | Beer
  | Water | Milk | Juice | Broth
  | Shortening | Butter | Margarine | ReducedFatSubstitute | Oil
  | TableSalt | MisoPaste | DashiPowder
  | Eggs
  | Other
deriving DecidableEq

/-- `Ingredient` of `crates/bread-world-models/src/lib.rs`.  The `Ulid`
identifier is embedded as a natural number; the descriptive string fields
(`name`, `brand`, `notes`, `reference`) and the picture list play no role in
the solver and are omitted.  The composition fields are the ratios of
proteins, ash, water, sugar, salt and fat relative to the ingredient's own
total mass. -/
structure Ingredient where
  id : Nat
  category : IngredientCategory
  kind : IngredientKind
  proteins : ℚ
  ash : ℚ
  water : ℚ
  sugar : ℚ
  salt : ℚ
  fat : ℚ
deriving DecidableEq

/-- `Ingredient::NOT_ZERO_THRESHOLD` (`0.001`). -/
def NOT_ZERO_THRESHOLD : ℚ := 1 / 1000

/-- `Ingredient::has_flour`: category is `Flour` or kind is
`SourdoughStarter`. -/
def Ingredient.has_flour (i : Ingredient) : Prop :=
  i.category = IngredientCategory.Flour ∨ i.kind = IngredientKind.SourdoughStarter

instance (i : Ingredient) : Decidable i.has_flour :=
  inferInstanceAs (Decidable (_ ∨ _))

/-- `Ingredient::has_water`: water ratio strictly above the `0.001`
threshold. -/
def Ingredient.has_water (i : Ingredient) : Prop :=
  NOT_ZERO_THRESHOLD < i.water

instance (i : Ingredient) : Decidable i.has_water :=
  inferInstanceAs (Decidable (_ < _))

/-- `Ingredient::has_salt`: salt ratio strictly above the `0.001`
threshold. -/
def Ingredient.has_salt (i : Ingredient) : Prop :=
  NOT_ZERO_THRESHOLD < i.salt

instance (i : Ingredient) : Decidable i.has_salt :=
  inferInstanceAs (Decidable (_ < _))

/-- `Ingredient::is_leavener`: category is `Leavener`. -/
def Ingredient.is_leavener (i : Ingredient) : Prop :=
  i.category = IngredientCategory.Leavener

instance (i : Ingredient) : Decidable i.is_leavener :=
  inferInstanceAs (Decidable (_ = _))

/-- `Ingredient::flour_ratio`: `1 - water` when the ingredient has flour,
`0` otherwise. -/
def Ingredient.flour_ratio (i : Ingredient) : ℚ :=
  if i.has_flour then 1 - i.water else 0

/-- `Dough` of `crates/bread-world-models/src/lib.rs`: the solved flour,
water and wheat-protein aggregates plus one `(ingredient id, mass)` pair per
input ingredient, in input order. -/
structure Dough where
  flour : ℚ
  water : ℚ
  wheat_proteins : ℚ
  ingredients : List (Nat × ℚ)
deriving DecidableEq

/-- `Dough::total_mass`: the sum of the masses of the `ingredients` list. -/
def Dough.total_mass (d : Dough) : ℚ :=
  (d.ingredients.map (fun p => p.2)).sum

/-- `Dough::hydratation` (`self.water / self.flour`), read in exact rational
arithmetic.  This is the value the Rust code computes whenever
`flour ≠ 0`; at `flour = 0` the Rust division yields a non-finite float
instead, captured by `Dough.hydratationF` below. -/
def Dough.hydratation (d : Dough) : ℚ :=
  d.water / d.flour

/-- `Dough::wheat_proteins_ratio` (`self.wheat_proteins / self.flour`), read
in exact rational arithmetic (see `Dough.hydratation`). -/
def Dough.wheat_proteins_ratio (d : Dough) : ℚ :=
  d.wheat_proteins / d.flour

/-- `Dough::hydratation` read with IEEE-754 division semantics: the very
same source expression `self.water / self.flour`, evaluated on float value
classes, which is what the Rust code actually returns when `flour = 0`. -/
def Dough.hydratationF (d : Dough) : F :=
  (F.fin d.water).div (F.fin d.flour)

/-- `Dough::wheat_proteins_ratio` read with IEEE-754 division semantics
(see `Dough.hydratationF`). -/
def Dough.wheat_proteins_ratioF (d : Dough) : F :=
  (F.fin d.wheat_proteins).div (F.fin d.flour)

/-! ## The linear problem built by `solve_impl` (`crates/bread-world/src/lib.rs`) -/

/-- `ellp::Bound` as used by `Target::bound`: either a fixed value or a free
variable. -/
inductive Bound where
  | Fixed : ℚ → Bound
  | Free : Bound
deriving DecidableEq

/-- `Target` of `crates/bread-world/src/lib.rs`: an optional absolute mass
(in grams) and an optional ratio. -/
structure Target where
  mass : Option ℚ
  ratio : Option ℚ
deriving DecidableEq

/-- `Target::free()`. -/
def Target.free : Target := ⟨none, none⟩

/-- `Target::by_mass(value)`. -/
def Target.by_mass (value : ℚ) : Target := ⟨some value, none⟩

/-- `Target::by_ratio(value)`. -/
def Target.by_ratio (value : ℚ) : Target := ⟨none, some value⟩

/-- `Target::bound()`: a fixed bound when a mass is present, otherwise
free. -/
def Target.bound (t : Target) : Bound :=
  match t.mass with
  | some m => Bound.Fixed m
  | none => Bound.Free

/-- `DoughProblem` of `crates/bread-world/src/lib.rs`. -/
structure DoughProblem where
  mass : Target
  flour : Target
  wheat_proteins : Target
  hydratation : ℚ
  salt_ratio : ℚ
  ingredients : List (Ingredient × Target)

/-- A variable of the linear problem: its objective coefficient (the first
argument of `ellp`'s `add_var`) and its bound.  Variable identifiers are
positions in the variable list, in `add_var` order, exactly as `ellp`
assigns them.  The display name passed to `add_var` is irrelevant to the
semantics and is omitted. -/
structure Variable where
  obj : ℚ
  bound : Bound
deriving DecidableEq

/-- An equality constraint of the linear problem: the coefficient list
`(variable id, coefficient)` and the right-hand side.  Every constraint
emitted by `solve_impl` uses `ConstraintOp::Eq`. -/
structure Constraint where
  terms : List (Nat × ℚ)
  rhs : ℚ
deriving DecidableEq

/-- The linear problem handed to the solver. -/
structure Problem where
  vars : List Variable
  constraints : List Constraint

/-- Identifier of the `total_mass` variable (first `add_var` call). -/
def totalMassVar : Nat := 0
/-- Identifier of the `total_flour` variable. -/
def totalFlourVar : Nat := 1
/-- Identifier of the `total_water` variable. -/
def totalWaterVar : Nat := 2
/-- Identifier of the `total_leavener` variable. -/
def totalLeavenerVar : Nat := 3
/-- Identifier of the `total_salt` variable. -/
def totalSaltVar : Nat := 4
/-- Identifier of the `total_wheat_proteins` variable. -/
def totalWheatProteinsVar : Nat := 5
/-- Identifier of the variable of the ingredient at position `k` of the
input list (added after the six aggregate variables). -/
def ingredientVar (k : Nat) : Nat := 6 + k

/-- The per-ingredient variables: the ingredient at position `k` gets
objective coefficient `k + 1` (`(weight + 1) as f64` in the source) and the
bound of its own target. -/
def ingredientVarsFrom : Nat → List (Ingredient × Target) → List Variable
  | _, [] => []
  | k, (_, t) :: rest => ⟨(k : ℚ) + 1, t.bound⟩ :: ingredientVarsFrom (k + 1) rest

/-- Coefficient rows of one aggregate sum constraint: for the ingredient at
position `k`, the selector yields `some c` exactly when the source's
`filter_map` keeps the ingredient, with coefficient `c` on its variable. -/
def aggTermsFrom (sel : Ingredient → Option ℚ) :
    Nat → List (Ingredient × Target) → List (Nat × ℚ)
  | _, [] => []
  | k, (i, _) :: rest =>
      match sel i with
      | some c => (ingredientVar k, c) :: aggTermsFrom sel (k + 1) rest
      | none => aggTermsFrom sel (k + 1) rest

/-- The reference aggregate used for a ratio-pinned ingredient, from the
`let total = if ...` chain of `solve_impl`: flour for a leavener or a
flour-bearing ingredient, else water for a water-bearing one, else salt for
a salt-bearing one, else the total dough mass. -/
def refTotal (i : Ingredient) : Nat :=
  if i.is_leavener ∨ i.has_flour then totalFlourVar
  else if i.has_water then totalWaterVar
  else if i.has_salt then totalSaltVar
  else totalMassVar

/-- The per-ingredient ratio constraints of `solve_impl`'s final loop: for
the ingredient at position `k` whose target carries ratio `r`, the
constraint `r · reference - mass_k = 0`.  Ingredients without a ratio are
skipped (the loop's `continue`). -/
def ratioConstraintsFrom : Nat → List (Ingredient × Target) → List Constraint
  | _, [] => []
  | k, (i, t) :: rest =>
      match t.ratio with
      | some r =>
          ⟨[(refTotal i, r), (ingredientVar k, -1)], 0⟩ ::
            ratioConstraintsFrom (k + 1) rest
      | none => ratioConstraintsFrom (k + 1) rest

/-- The linear problem constructed by `solve_impl` from a `DoughProblem`:
six aggregate variables (total mass, flour, water, leavener, salt, wheat
proteins) then one variable per ingredient; the six aggregate sum
constraints, the hydratation and salt ratio constraints, the optional
wheat-protein ratio constraint, and the per-ingredient ratio constraints. -/
def build (P : DoughProblem) : Problem where
  vars :=
    ⟨1, P.mass.bound⟩ :: ⟨1, P.flour.bound⟩ :: ⟨1, Bound.Free⟩ ::
    ⟨1, Bound.Free⟩ :: ⟨1, Bound.Free⟩ :: ⟨1, P.wheat_proteins.bound⟩ ::
    ingredientVarsFrom 0 P.ingredients
  constraints :=
    ⟨(totalMassVar, -1) :: aggTermsFrom (fun _ => some 1) 0 P.ingredients, 0⟩ ::
    ⟨(totalFlourVar, -1) ::
      aggTermsFrom (fun i => if i.has_flour then some i.flour_ratio else none) 0
        P.ingredients, 0⟩ ::
    ⟨(totalWaterVar, -1) ::
      aggTermsFrom (fun i => if i.has_water then some i.water else none) 0
        P.ingredients, 0⟩ ::
    ⟨(totalLeavenerVar, -1) ::
      aggTermsFrom (fun i => if i.is_leavener then some 1 else none) 0
        P.ingredients, 0⟩ ::
    ⟨(totalSaltVar, -1) ::
      aggTermsFrom (fun i => if i.has_salt then some i.salt else none) 0
        P.ingredients, 0⟩ ::
    ⟨(totalWheatProteinsVar, -1) ::
      aggTermsFrom (fun i => if i.has_flour then some i.proteins else none) 0
        P.ingredients, 0⟩ ::
    ⟨[(totalFlourVar, P.hydratation), (totalWaterVar, -1)], 0⟩ ::
    ⟨[(totalFlourVar, P.salt_ratio), (totalSaltVar, -1)], 0⟩ ::
    ((match P.wheat_proteins.ratio with
      | some r => [⟨[(totalFlourVar, r), (totalWheatProteinsVar, -1)], 0⟩]
      | none => []) ++
     ratioConstraintsFrom 0 P.ingredients)

/-- A variable bound is met by a value. -/
def boundSat : Bound → ℚ → Prop
  | Bound.Fixed v, q => q = v
  | Bound.Free, _ => True

instance instDecBoundSat : (b : Bound) → (q : ℚ) → Decidable (boundSat b q)
  | Bound.Fixed v, q => inferInstanceAs (Decidable (q = v))
  | Bound.Free, _ => inferInstanceAs (Decidable True)

/-- All variable bounds are met by a point, the variable at list position
`k` (counting from the given start index) reading the point's coordinate
`k` (missing coordinates read as `0`). -/
def boundsSatFrom : Nat → List Variable → List ℚ → Prop
  | _, [], _ => True
  | k, v :: vs, x => boundSat v.bound (x.getD k 0) ∧ boundsSatFrom (k + 1) vs x

instance instDecBoundsSatFrom :
    (k : Nat) → (vs : List Variable) → (x : List ℚ) →
    Decidable (boundsSatFrom k vs x)
  | _, [], _ => Decidable.isTrue trivial
  | k, _v :: vs, x =>
      have : Decidable (boundsSatFrom (k + 1) vs x) :=
        instDecBoundsSatFrom (k + 1) vs x
      inferInstanceAs (Decidable (_ ∧ _))

/-- One equality constraint holds at a point. -/
def constrSat (c : Constraint) (x : List ℚ) : Prop :=
  (c.terms.map (fun t => t.2 * x.getD t.1 0)).sum = c.rhs

instance instDecConstrSat (c : Constraint) (x : List ℚ) :
    Decidable (constrSat c x) :=
  inferInstanceAs (Decidable (_ = _))

/-- All constraints hold at a point. -/
def constraintsSat : List Constraint → List ℚ → Prop
  | [], _ => True
  | c :: cs, x => constrSat c x ∧ constraintsSat cs x

instance instDecConstraintsSat :
    (cs : List Constraint) → (x : List ℚ) → Decidable (constraintsSat cs x)
  | [], _ => Decidable.isTrue trivial
  | _c :: cs, x =>
      have : Decidable (constraintsSat cs x) := instDecConstraintsSat cs x
      inferInstanceAs (Decidable (_ ∧ _))

/-- A point satisfies a linear problem: every variable bound and every
equality constraint holds.  This is the feasibility notion of the solver
contract of spec section 4.4. -/
def satisfies (p : Problem) (x : List ℚ) : Prop :=
  boundsSatFrom 0 p.vars x ∧ constraintsSat p.constraints x

instance instDecSatisfies (p : Problem) (x : List ℚ) :
    Decidable (satisfies p x) :=
  inferInstanceAs (Decidable (_ ∧ _))

/-- `ellp::SolverResult` as consumed by `solve_impl`: an optimal point, or
an infeasibility/unboundedness signal. -/
inductive SolverResult where
  | optimal : List ℚ → SolverResult
  | infeasible : SolverResult
  | unbounded : SolverResult

/-- `DoughSolution` of `crates/bread-world/src/lib.rs`. -/
inductive DoughSolution where
  | Found : Dough → DoughSolution
  | NotFound : DoughSolution
deriving DecidableEq

/-- The value of the linear objective at a point, the variable at list
position `k` (counting from the given start index) contributing its
coefficient times the point's coordinate `k`. -/
def objValFrom : Nat → List Variable → List ℚ → ℚ
  | _, [], _ => 0
  | k, v :: vs, x => v.obj * x.getD k 0 + objValFrom (k + 1) vs x

/-- The objective value of a point for a problem (the solver minimises
it; `ellp`'s `DualSimplexSolver` minimises the given objective). -/
def objVal (p : Problem) (x : List ℚ) : ℚ :=
  objValFrom 0 p.vars x

/-- Modelled from the spec: the full contract of the external `ellp`
solver (spec section 4.4, a third-party dependency of this repository):
an `Optimal` answer is a point that satisfies all constraints and bounds
of the submitted problem and optimises (minimises) the linear objective
over all such points.  An infeasible or unbounded system therefore admits
no `Optimal` answer from a contract-compliant solver. -/
def SolverContract (sv : Problem → SolverResult) : Prop :=
  ∀ p x, sv p = SolverResult.optimal x →
    satisfies p x ∧ ∀ y, satisfies p y → objVal p x ≤ objVal p y

/-- The feasibility half of `SolverContract`: any `Optimal` answer
satisfies every bound and constraint of the submitted problem.  The
solution-side claims (mass balance, ratio satisfaction, monotonicity)
need only this half of the contract, so they are stated with this weaker
hypothesis, which makes them apply to every solver the full contract
admits. -/
def SolverOk (sv : Problem → SolverResult) : Prop :=
  ∀ p x, sv p = SolverResult.optimal x → satisfies p x

/-- The full solver contract implies its feasibility half. -/
lemma SolverContract.ok (sv : Problem → SolverResult)
    (h : SolverContract sv) : SolverOk sv :=
  fun p x hx => (h p x hx).1

/-- A problem whose objective is unbounded (below) on its feasible set:
for every rational bound some satisfying point has a smaller objective
value.  Such a problem has no optimal point. -/
def unbounded (p : Problem) : Prop :=
  ∀ B : ℚ, ∃ x, satisfies p x ∧ objVal p x < B

/-- The solution extraction of `solve_impl`: `total_flour`, `total_water`
and `total_wheat_proteins` are read off the point, and each ingredient gets
the value of its own variable, in input order. -/
def extractIngs (x : List ℚ) : Nat → List (Ingredient × Target) → List (Nat × ℚ)
  | _, [] => []
  | k, (i, _) :: rest => (i.id, x.getD (ingredientVar k) 0) :: extractIngs x (k + 1) rest

/-- The `Dough` built by `solve_impl` from an optimal point. -/
def extract (P : DoughProblem) (x : List ℚ) : Dough where
  flour := x.getD totalFlourVar 0
  water := x.getD totalWaterVar 0
  wheat_proteins := x.getD totalWheatProteinsVar 0
  ingredients := extractIngs x 0 P.ingredients

/-- `solve_impl`, with the external solver passed as the `sv` argument
(modelled from the spec, section 4.4): an `Optimal` answer is mapped to
`Found` of the extracted dough, anything else to `NotFound`. -/
def solve (sv : Problem → SolverResult) (P : DoughProblem) : DoughSolution :=
  match sv (build P) with
  | SolverResult.optimal x => DoughSolution.Found (extract P x)
  | _ => DoughSolution.NotFound

/-! ## Fixture ingredients (test module of `crates/bread-world/src/lib.rs`) -/

/-- The `white_flour` fixture: category `Flour`, 13 % proteins, 6 % ash, no
water, no salt. -/
def white_flour : Ingredient :=
  ⟨1, IngredientCategory.Flour, IngredientKind.WhiteFlourUnbleached,
   13 / 100, 6 / 100, 0, 0, 0, 0⟩

/-- The `stiff_sourdough_starter` fixture: category `Leavener`, kind
`SourdoughStarter`; its water ratio is `hydratation_to_water_ratio(0.5) =
1/3`, its proteins `(1 - 1/3) · 0.14 = 7/75` and its ash
`(1 - 1/3) · 0.06 = 1/25`. -/
def stiff_sourdough_starter : Ingredient :=
  ⟨2, IngredientCategory.Leavener, IngredientKind.SourdoughStarter,
   7 / 75, 1 / 25, 1 / 3, 0, 0, 0⟩

/-- The `tap_water` fixture: category `Liquid`, pure water. -/
def tap_water : Ingredient :=
  ⟨3, IngredientCategory.Liquid, IngredientKind.Water, 0, 0, 1, 0, 0, 0⟩

/-- The `table_salt` fixture: category `Salt`, pure salt. -/
def table_salt : Ingredient :=
  ⟨4, IngredientCategory.Salt, IngredientKind.TableSalt, 0, 0, 0, 0, 1, 0⟩

/-- The `gluten_powder` fixture: category `Flour`, 72 % proteins. -/
def gluten_powder : Ingredient :=
  ⟨5, IngredientCategory.Flour, IngredientKind.GlutenPowder,
   72 / 100, 6 / 100, 0, 0, 0, 0⟩

/-- The canonical four-ingredient problem of the spec's monotonicity
property and of the `solve_by_total_mass` test: total mass pinned to `M`,
hydratation `hy`, salt ratio `sr`, free added white flour, a starter pinned
to ratio `r` of total flour, free added water and free salt. -/
def starterProblem (M hy sr r : ℚ) : DoughProblem where
  mass := Target.by_mass M
  flour := Target.free
  wheat_proteins := Target.free
  hydratation := hy
  salt_ratio := sr
  ingredients :=
    [(white_flour, Target.free), (stiff_sourdough_starter, Target.by_ratio r),
     (tap_water, Target.free), (table_salt, Target.free)]

/-- The infeasible scenario of spec section 8: total mass pinned to 100 g
while one ingredient is independently pinned to 200 g (hydratation and salt
ratio at the `DoughProblem::default()` values `0.7` and `0.02`). -/
def conflictingProblem : DoughProblem where
  mass := Target.by_mass 100
  flour := Target.free
  wheat_proteins := Target.free
  hydratation := 7 / 10
  salt_ratio := 1 / 50
  ingredients := [(tap_water, Target.by_mass 200)]

/-- A `DoughProblem` whose constraint system is feasible but unbounded:
every target free and two pure-water ingredients.  The hydratation
constraint forces `total_water = 0`, so the two water masses must be
opposite (`t` and `-t`); their objective coefficients differ (`1` and
`2`), so the objective `-t` is unbounded (in both directions) along this
feasible line. -/
def twoWaterProblem : DoughProblem where
  mass := Target.free
  flour := Target.free
  wheat_proteins := Target.free
  hydratation := 7 / 10
  salt_ratio := 1 / 50
  ingredients := [(tap_water, Target.free), (tap_water, Target.free)]

/-- The wheat-protein scenario of the `solve_by_wheat_proteins` test, with
the total mass target left as a parameter: wheat-protein ratio target
`0.15`, hydratation `0.85`, default salt ratio, free white flour, free
gluten powder, starter pinned to ratio `0.2`, free water, free salt. -/
def wheatProblem (M : ℚ) : DoughProblem where
  mass := Target.by_mass M
  flour := Target.free
  wheat_proteins := Target.by_ratio (3 / 20)
  hydratation := 17 / 20
  salt_ratio := 1 / 50
  ingredients :=
    [(white_flour, Target.free), (gluten_powder, Target.free),
     (stiff_sourdough_starter, Target.by_ratio (1 / 5)),
     (tap_water, Target.free), (table_salt, Target.free)]

/-- The all-zero point, long enough for every problem considered here. -/
def zeroPoint : List ℚ := List.replicate 11 0

/-- A contract-compliant solver used to exhibit concrete `Found` outcomes:
it answers `optimal zeroPoint` exactly on the problems that the all-zero
point satisfies, and reports infeasibility otherwise. -/
def zeroSolver : Problem → SolverResult := fun p =>
  if satisfies p zeroPoint then SolverResult.optimal zeroPoint
  else SolverResult.infeasible

/-- `zeroSolver` meets the solver contract. -/
lemma zeroSolver_ok : SolverOk zeroSolver := by
  intro p x h
  unfold zeroSolver at h
  split at h
  · cases h
    assumption
  · cases h

/-! ## Composition utilities: supporting lemmas -/

/-- On a finite non-negative hydratation the conversion computes
`h / (h + 1)`. -/
lemma htwr_fin (a : ℚ) (ha : 0 ≤ a) :
    hydratation_to_water_ratio (F.fin a) = some (F.fin (a / (a + 1))) := by
  have h1 : (F.fin a).geb (F.fin 0) = true := by
    simp [F.geb, ha]
  have h4 : a + 1 ≠ 0 := by linarith
  rw [hydratation_to_water_ratio, if_pos h1, if_neg (by simp)]
  show some ((F.fin a).div (F.fin (a + 1))) = _
  simp [F.div, h4]

/-- On a negative finite hydratation the first assertion fails. -/
lemma htwr_fin_neg (a : ℚ) (ha : a < 0) :
    hydratation_to_water_ratio (F.fin a) = none := by
  have h1 : (F.fin a).geb (F.fin 0) = false := by
    simp [F.geb]
    linarith
  rw [hydratation_to_water_ratio, h1]
  simp

/-- Subtraction of finite values is exact. -/
lemma F.sub_fin (a b : ℚ) : (F.fin a).sub (F.fin b) = F.fin (a - b) := by
  simp [F.sub, F.add, F.neg, sub_eq_add_neg]

/-- On a finite water ratio in `[0, 1)` the conversion computes
`w / (1 - w)`. -/
lemma wrth_fin (a : ℚ) (h0 : 0 ≤ a) (h1 : a < 1) :
    water_ratio_to_hydratation (F.fin a) = some (F.fin (a / (1 - a))) := by
  have hg : (F.fin a).geb (F.fin 0) = true := by
    simp [F.geb, h0]
  have hl : (F.fin a).leb (F.fin 1) = true := by
    simp [F.leb]
    linarith
  have hne : 1 - a ≠ 0 := by linarith
  rw [water_ratio_to_hydratation, if_pos hg, if_pos hl, F.sub_fin]
  simp [F.div, hne]

/-- On the water ratio `1` both assertions pass and the IEEE division
`1 / 0` returns `+∞`. -/
lemma wrth_one : water_ratio_to_hydratation (F.fin 1) = some F.posInf := by
  have hg : (F.fin 1).geb (F.fin 0) = true := by
    simp [F.geb]
  have hl : (F.fin 1).leb (F.fin 1) = true := by
    simp [F.leb]
  rw [water_ratio_to_hydratation, if_pos hg, if_pos hl, F.sub_fin]
  norm_num [F.div]

/-! ## Claim C5 -/

/-- Claim C5, as stated, is false at NaN: `hydratation_to_water_ratio`
fails its first assertion on a NaN input (IEEE `NaN >= 0` is false), yet
NaN is neither `< 0` (IEEE `NaN < 0` is also false) nor `+∞`, so the
stated failure set `h < 0 ∨ h = +∞` misses it. -/
theorem c5_counterexample :
    hydratation_to_water_ratio F.nan = none ∧
    F.ltb F.nan (F.fin 0) = false ∧ F.nan ≠ F.posInf := by
  decide

/-- Claim C5, amended for the NaN input: `hydratation_to_water_ratio h`
fails by assertion violation exactly when `h < 0` (IEEE comparison), or
`h = +∞`, or `h` is NaN; on every other input it returns a finite value in
the half-open interval `[0, 1)`. -/
theorem c5_amended (h : F) :
    (hydratation_to_water_ratio h = none ↔
      (F.ltb h (F.fin 0) = true ∨ h = F.posInf ∨ h = F.nan)) ∧
    ∀ w, hydratation_to_water_ratio h = some w →
      w.isFinite = true ∧ w.geb (F.fin 0) = true ∧ w.ltb (F.fin 1) = true := by
  cases h with
  | nan =>
      refine ⟨by simp [hydratation_to_water_ratio, F.geb], ?_⟩
      intro w hw
      simp [hydratation_to_water_ratio, F.geb] at hw
  | posInf =>
      refine ⟨by simp [hydratation_to_water_ratio, F.geb], ?_⟩
      intro w hw
      simp [hydratation_to_water_ratio, F.geb] at hw
  | negInf =>
      refine ⟨by simp [hydratation_to_water_ratio, F.geb, F.ltb], ?_⟩
      intro w hw
      simp [hydratation_to_water_ratio, F.geb] at hw
  | fin a =>
      by_cases ha : 0 ≤ a
      · have hpos : 0 < a + 1 := by linarith
        rw [htwr_fin a ha]
        constructor
        · simp [F.ltb]
          linarith
        · intro w hw
          cases hw
          refine ⟨rfl, ?_, ?_⟩
          · simp [F.geb]
            exact div_nonneg ha (le_of_lt hpos)
          · simp [F.ltb]
            rw [div_lt_one hpos]
            linarith
      · push_neg at ha
        rw [htwr_fin_neg a ha]
        constructor
        · simp [F.ltb]
          exact ha
        · intro w hw
          cases hw

/-- Witness for C5 (amended): at hydratation `1` the conversion succeeds
and the returned water ratio `1/2` is finite, non-negative and below `1`. -/
theorem c5_witness :
    F.isFinite (F.fin (1 / 2)) = true ∧
    F.geb (F.fin (1 / 2)) (F.fin 0) = true ∧
    F.ltb (F.fin (1 / 2)) (F.fin 1) = true :=
  (c5_amended (F.fin 1)).2 (F.fin (1 / 2))
    (by rw [htwr_fin 1 (by norm_num)]; norm_num)

/-! ## Claim C6 -/

/-- Claim C6, as stated, is false at NaN: `water_ratio_to_hydratation`
fails its first assertion on a NaN input, yet NaN is neither `< 0` nor
`> 1` under IEEE comparison, so the stated failure set `w < 0 ∨ w > 1`
misses it. -/
theorem c6_counterexample :
    water_ratio_to_hydratation F.nan = none ∧
    F.ltb F.nan (F.fin 0) = false ∧ F.ltb (F.fin 1) F.nan = false := by
  refine ⟨?_, rfl, rfl⟩
  simp [water_ratio_to_hydratation, F.geb]

/-- Claim C6, amended for the NaN input: `water_ratio_to_hydratation w`
fails by assertion violation exactly when `w < 0` (IEEE comparison), or
`w > 1`, or `w` is NaN; on every other input it returns a value that is
`≥ 0` under IEEE comparison (at `w = 1` that value is `+∞`, with no
clamping and no failure); and on finite inputs approaching `1` from below
the returned hydratation exceeds any prescribed rational. -/
theorem c6_amended (w : F) :
    (water_ratio_to_hydratation w = none ↔
      (F.ltb w (F.fin 0) = true ∨ F.ltb (F.fin 1) w = true ∨ w = F.nan)) ∧
    (∀ hv, water_ratio_to_hydratation w = some hv → hv.geb (F.fin 0) = true) ∧
    (∀ B : ℚ, ∃ δ : ℚ, 0 < δ ∧ ∀ wq : ℚ, 1 - δ < wq → wq < 1 →
      ∃ hq : ℚ, water_ratio_to_hydratation (F.fin wq) = some (F.fin hq) ∧ B < hq) ∧
    water_ratio_to_hydratation (F.fin 1) = some F.posInf := by
  refine ⟨?_, ?_, ?_, wrth_one⟩
  · cases w with
    | nan => simp [water_ratio_to_hydratation, F.geb]
    | posInf => simp [water_ratio_to_hydratation, F.geb, F.leb, F.ltb]
    | negInf => simp [water_ratio_to_hydratation, F.geb, F.ltb]
    | fin a =>
        by_cases h0 : 0 ≤ a
        · by_cases h1 : a ≤ 1
          · rcases lt_or_eq_of_le h1 with h1' | h1'
            · rw [wrth_fin a h0 h1']
              simp [F.ltb]
              constructor <;> linarith
            · subst h1'
              rw [wrth_one]
              simp [F.ltb]
          · push_neg at h1
            have : water_ratio_to_hydratation (F.fin a) = none := by
              rw [water_ratio_to_hydratation]
              have hg : (F.fin a).geb (F.fin 0) = true := by
                simp [F.geb, h0]
              have hl : (F.fin a).leb (F.fin 1) = false := by
                simp [F.leb]
                linarith
              rw [if_pos hg, hl]
              simp
            rw [this]
            simp [F.ltb]
            exact Or.inr h1
        · push_neg at h0
          have : water_ratio_to_hydratation (F.fin a) = none := by
            rw [water_ratio_to_hydratation]
            have hg : (F.fin a).geb (F.fin 0) = false := by
              simp [F.geb]
              linarith
            rw [hg]
            simp
          rw [this]
          simp [F.ltb]
          exact Or.inl h0
  · intro hv hhv
    cases w with
    | nan => simp [water_ratio_to_hydratation, F.geb] at hhv
    | posInf => simp [water_ratio_to_hydratation, F.geb, F.leb] at hhv
    | negInf => simp [water_ratio_to_hydratation, F.geb] at hhv
    | fin a =>
        by_cases h0 : 0 ≤ a
        · by_cases h1 : a ≤ 1
          · rcases lt_or_eq_of_le h1 with h1' | h1'
            · rw [wrth_fin a h0 h1'] at hhv
              cases hhv
              simp [F.geb]
              exact div_nonneg h0 (by linarith)
            · subst h1'
              rw [wrth_one] at hhv
              cases hhv
              rfl
          · push_neg at h1
            rw [water_ratio_to_hydratation] at hhv
            have hg : (F.fin a).geb (F.fin 0) = true := by
              simp [F.geb, h0]
            have hl : (F.fin a).leb (F.fin 1) = false := by
              simp [F.leb]
              linarith
            rw [if_pos hg, hl] at hhv
            simp at hhv
        · push_neg at h0
          rw [water_ratio_to_hydratation] at hhv
          have hg : (F.fin a).geb (F.fin 0) = false := by
            simp [F.geb]
            linarith
          rw [hg] at hhv
          simp at hhv
  · intro B
    refine ⟨1 / (max B 0 + 2), by positivity, ?_⟩
    intro wq hlo hhi
    have hC : (0 : ℚ) ≤ max B 0 := le_max_right B 0
    have hδpos : (0 : ℚ) < 1 / (max B 0 + 2) := by positivity
    have hδlt : 1 / (max B 0 + 2) ≤ 1 / 2 := by
      rw [div_le_div_iff₀ (by linarith) (by norm_num)]
      linarith
    have hwq0 : 0 ≤ wq := by linarith
    have hden : 0 < 1 - wq := by linarith
    refine ⟨wq / (1 - wq), wrth_fin wq hwq0 hhi, ?_⟩
    have hdlt : 1 - wq < 1 / (max B 0 + 2) := by linarith
    have step1 : (1 - 1 / (max B 0 + 2)) / (1 / (max B 0 + 2)) =
        max B 0 + 1 := by
      field_simp
      ring
    have step2 : (1 - 1 / (max B 0 + 2)) / (1 / (max B 0 + 2)) <
        (1 - 1 / (max B 0 + 2)) / (1 - wq) := by
      apply div_lt_div_of_pos_left _ hden hdlt
      linarith
    have step3 : (1 - 1 / (max B 0 + 2)) / (1 - wq) ≤ wq / (1 - wq) := by
      apply (div_le_div_iff_of_pos_right hden).mpr
      linarith
    have hBmax : B ≤ max B 0 := le_max_left B 0
    calc B ≤ max B 0 := hBmax
      _ < max B 0 + 1 := by linarith
      _ = (1 - 1 / (max B 0 + 2)) / (1 / (max B 0 + 2)) := step1.symm
      _ < (1 - 1 / (max B 0 + 2)) / (1 - wq) := step2
      _ ≤ wq / (1 - wq) := step3

/-- Witness for C6 (amended): at water ratio `1/2` the conversion succeeds
and the returned hydratation (`1`) is `≥ 0` under IEEE comparison. -/
theorem c6_witness : F.geb (F.fin 1) (F.fin 0) = true :=
  (c6_amended (F.fin (1 / 2))).2.1 (F.fin 1)
    (by rw [wrth_fin (1 / 2) (by norm_num) (by norm_num)]; norm_num)

/-! ## Claim C7 -/

/-- Claim C7: the two conversions are mutually inverse, for water ratios in
`[0, 1)` and finite hydratations in `[0, ∞)`.  In this exact-arithmetic
model the round trips recover the input exactly, which in particular is
within the 0.1 % relative tolerance the claim allows. -/
theorem c7_round_trip (w hq : ℚ) (hw0 : 0 ≤ w) (hw1 : w < 1) (hh0 : 0 ≤ hq) :
    (water_ratio_to_hydratation (F.fin w)).bind hydratation_to_water_ratio
      = some (F.fin w) ∧
    (hydratation_to_water_ratio (F.fin hq)).bind water_ratio_to_hydratation
      = some (F.fin hq) := by
  have hwden : (0 : ℚ) < 1 - w := by linarith
  have hhden : (0 : ℚ) < hq + 1 := by linarith
  constructor
  · rw [wrth_fin w hw0 hw1]
    show hydratation_to_water_ratio (F.fin (w / (1 - w))) = some (F.fin w)
    rw [htwr_fin _ (div_nonneg hw0 hwden.le)]
    have key : w / (1 - w) / (w / (1 - w) + 1) = w := by
      have hne : (1 : ℚ) - w ≠ 0 := ne_of_gt hwden
      have e1 : w / (1 - w) + 1 = 1 / (1 - w) := by
        field_simp
      rw [e1]
      field_simp
    rw [key]
  · rw [htwr_fin hq hh0]
    show water_ratio_to_hydratation (F.fin (hq / (hq + 1))) = some (F.fin hq)
    have h0' : 0 ≤ hq / (hq + 1) := div_nonneg hh0 hhden.le
    have h1' : hq / (hq + 1) < 1 := by
      rw [div_lt_one hhden]
      linarith
    rw [wrth_fin _ h0' h1']
    have : hq / (hq + 1) / (1 - hq / (hq + 1)) = hq := by
      have hne : hq + 1 ≠ 0 := ne_of_gt hhden
      field_simp
    rw [this]

/-- Witness for C7: both round trips at water ratio `1/3` and hydratation
`2`. -/
theorem c7_witness :
    (water_ratio_to_hydratation (F.fin (1 / 3))).bind hydratation_to_water_ratio
      = some (F.fin (1 / 3)) ∧
    (hydratation_to_water_ratio (F.fin 2)).bind water_ratio_to_hydratation
      = some (F.fin 2) :=
  c7_round_trip (1 / 3) 2 (by norm_num) (by norm_num) (by norm_num)

/-! ## Claim C10 -/

/-- IEEE division of a finite value by zero, by sign of the numerator. -/
lemma F.div_fin_zero (a : ℚ) : (F.fin a).div (F.fin 0) =
    (if 0 < a then F.posInf else if a < 0 then F.negInf else F.nan) := by
  rcases lt_trichotomy a 0 with h | h | h
  · simp [F.div, ne_of_lt h, h, asymm h]
  · subst h
    simp [F.div]
  · simp [F.div, ne_of_gt h, h, asymm h]

/-- Claim C10: on a dough with zero flour mass, `Dough::hydratation` and
`Dough::wheat_proteins_ratio` perform their division unguarded — they do
not fail (both are total functions) and return a non-finite IEEE value:
`+∞` for a positive numerator, `-∞` for a negative one, NaN for `0 / 0` —
so callers receive no error signal. -/
theorem c10_unguarded_division (d : Dough) (hf : d.flour = 0) :
    d.hydratationF.isFinite = false ∧
    d.wheat_proteins_ratioF.isFinite = false ∧
    d.hydratationF =
      (if 0 < d.water then F.posInf
       else if d.water < 0 then F.negInf else F.nan) ∧
    d.wheat_proteins_ratioF =
      (if 0 < d.wheat_proteins then F.posInf
       else if d.wheat_proteins < 0 then F.negInf else F.nan) := by
  unfold Dough.hydratationF Dough.wheat_proteins_ratioF
  rw [hf, F.div_fin_zero, F.div_fin_zero]
  refine ⟨?_, ?_, rfl, rfl⟩ <;> split_ifs <;> rfl

/-- Witness for C10: the dough `⟨flour 0, water 5, wheat proteins 3⟩` with
no ingredient rows. -/
theorem c10_witness :
    (Dough.mk 0 5 3 []).hydratationF.isFinite = false ∧
    (Dough.mk 0 5 3 []).wheat_proteins_ratioF.isFinite = false ∧
    (Dough.mk 0 5 3 []).hydratationF =
      (if (0 : ℚ) < 5 then F.posInf
       else if (5 : ℚ) < 0 then F.negInf else F.nan) ∧
    (Dough.mk 0 5 3 []).wheat_proteins_ratioF =
      (if (0 : ℚ) < 3 then F.posInf
       else if (3 : ℚ) < 0 then F.negInf else F.nan) :=
  c10_unguarded_division (Dough.mk 0 5 3 []) rfl

/-! ## Claim C1 -/

/-- The per-ingredient ratio constraint of the `k`-th ingredient of the
list is among the constraints the loop emits, with the reference chosen by
`refTotal`. -/
lemma ratioConstraintsFrom_mem (l : List (Ingredient × Target)) :
    ∀ (n k : Nat) (i : Ingredient) (t : Target) (r : ℚ),
      l[k]? = some (i, t) → t.ratio = some r →
      (⟨[(refTotal i, r), (ingredientVar (n + k), -1)], 0⟩ : Constraint) ∈
        ratioConstraintsFrom n l := by
  induction l with
  | nil =>
      intro n k i t r hk
      simp at hk
  | cons p rest ih =>
      intro n k i t r hk hr
      cases k with
      | zero =>
          simp at hk
          subst hk
          simp [ratioConstraintsFrom, hr]
      | succ k' =>
          simp [List.getElem?_cons_succ] at hk
          have hmem := ih (n + 1) k' i t r hk hr
          have harith : n + 1 + k' = n + (k' + 1) := by omega
          rw [harith] at hmem
          rcases hp : p.2.ratio with _ | r' <;>
            simp [ratioConstraintsFrom, hp] <;>
            [exact hmem; exact Or.inr hmem]

/-- Claim C1: for every ingredient with a ratio-type target, the emitted
ratio constraint ties the ingredient's variable to the reference aggregate
selected by exactly the stated precedence, computed from that ingredient's
own composition predicates: total flour if `is_leavener` or `has_flour`,
else total water if `has_water`, else total salt if `has_salt`, else total
dough mass. -/
theorem c1_reference_aggregate (P : DoughProblem) (k : Nat) (i : Ingredient)
    (t : Target) (r : ℚ) (hk : P.ingredients[k]? = some (i, t))
    (hr : t.ratio = some r) :
    (⟨[(if i.is_leavener ∨ i.has_flour then totalFlourVar
        else if i.has_water then totalWaterVar
        else if i.has_salt then totalSaltVar
        else totalMassVar, r), (ingredientVar k, -1)], 0⟩ : Constraint) ∈
      (build P).constraints := by
  show (⟨[(refTotal i, r), (ingredientVar k, -1)], 0⟩ : Constraint) ∈
    (build P).constraints
  have hmem := ratioConstraintsFrom_mem P.ingredients 0 k i t r hk hr
  rw [Nat.zero_add] at hmem
  apply List.mem_cons_of_mem
  apply List.mem_cons_of_mem
  apply List.mem_cons_of_mem
  apply List.mem_cons_of_mem
  apply List.mem_cons_of_mem
  apply List.mem_cons_of_mem
  apply List.mem_cons_of_mem
  apply List.mem_cons_of_mem
  exact List.mem_append_right _ hmem

/-- Witness for C1: in the canonical starter problem, the starter (which is
a leavener) at position 1, pinned to ratio `1/5`, gets a constraint against
the total-flour variable. -/
theorem c1_witness :
    (⟨[(if stiff_sourdough_starter.is_leavener ∨ stiff_sourdough_starter.has_flour
          then totalFlourVar
        else if stiff_sourdough_starter.has_water then totalWaterVar
        else if stiff_sourdough_starter.has_salt then totalSaltVar
        else totalMassVar, 1 / 5), (ingredientVar 1, -1)], 0⟩ : Constraint) ∈
      (build (starterProblem 1000 (3 / 4) (1 / 50) (1 / 5))).constraints :=
  c1_reference_aggregate (starterProblem 1000 (3 / 4) (1 / 50) (1 / 5)) 1
    stiff_sourdough_starter (Target.by_ratio (1 / 5)) (1 / 5) rfl rfl

/-! ## Claim C2 -/

/-- The two-water problem is feasible but its objective is unbounded
below: along the feasible line where the first water mass is `1 - B` and
the second `B - 1`, every constraint holds and the objective value is
`B - 1 < B`. -/
lemma twoWater_unbounded : unbounded (build twoWaterProblem) := by
  intro B
  refine ⟨[0, 0, 0, 0, 0, 0, 1 - B, B - 1], ⟨?_, ?_⟩, ?_⟩
  · exact ⟨trivial, trivial, trivial, trivial, trivial, trivial, trivial,
      trivial, trivial⟩
  · simp [build, twoWaterProblem, constraintsSat, constrSat, aggTermsFrom,
      ratioConstraintsFrom, ingredientVar, tap_water, Ingredient.has_flour,
      Ingredient.has_water, Ingredient.has_salt, Ingredient.is_leavener,
      Ingredient.flour_ratio, NOT_ZERO_THRESHOLD, totalMassVar,
      totalFlourVar, totalWaterVar, totalLeavenerVar, totalSaltVar,
      totalWheatProteinsVar, Target.free]
    norm_num
  · show (1 : ℚ) * 0 + (1 * 0 + (1 * 0 + (1 * 0 + (1 * 0 + (1 * 0 +
      ((0 + 1) * (1 - B) + ((1 + 1) * (B - 1) + 0))))))) < B
    ring_nf
    linarith

/-- Claim C2: when the constraint system of a `DoughProblem` is
infeasible (no satisfying point) or unbounded (the objective can be made
arbitrarily small over the feasible set, so no optimal point exists), any
solver meeting the spec 4.4 contract makes `solve` return `NotFound` (and
`solve`, being a total function, never panics).  In particular the
concrete scenario — total mass pinned to 100 g with an ingredient
independently pinned to 200 g — has an infeasible system, the two-water
problem has an unbounded system, and both yield `NotFound`. -/
theorem c2_infeasible_not_found (sv : Problem → SolverResult)
    (hsv : SolverContract sv) :
    (∀ Q : DoughProblem,
        ((∀ x, ¬ satisfies (build Q) x) ∨ unbounded (build Q)) →
        solve sv Q = DoughSolution.NotFound) ∧
    (∀ x, ¬ satisfies (build conflictingProblem) x) ∧
    solve sv conflictingProblem = DoughSolution.NotFound ∧
    unbounded (build twoWaterProblem) ∧
    solve sv twoWaterProblem = DoughSolution.NotFound := by
  have hgen : ∀ Q : DoughProblem,
      ((∀ x, ¬ satisfies (build Q) x) ∨ unbounded (build Q)) →
      solve sv Q = DoughSolution.NotFound := by
    intro Q hQ
    unfold solve
    split
    · next x heq =>
        obtain ⟨hfeas, hopt⟩ := hsv _ _ heq
        rcases hQ with hinf | hub
        · exact absurd hfeas (hinf x)
        · obtain ⟨y, hy, hlt⟩ := hub (objVal (build Q) x)
          exact absurd (hopt y hy) (not_le.mpr hlt)
    · rfl
  have hinf : ∀ x, ¬ satisfies (build conflictingProblem) x := by
    intro x hx
    obtain ⟨hb, hc⟩ := hx
    have e0 : x.getD 0 0 = 100 := hb.1
    have e6 : x.getD 6 0 = 200 := hb.2.2.2.2.2.2.1
    have ec := hc.1
    simp [constrSat, conflictingProblem, aggTermsFrom, ingredientVar,
      tap_water, totalMassVar] at e0 e6 ec
    linarith
  exact ⟨hgen, hinf, hgen conflictingProblem (Or.inl hinf),
    twoWater_unbounded, hgen twoWaterProblem (Or.inr twoWater_unbounded)⟩

/-- Witness for C2: the constantly-infeasible solver meets the full
contract, and both the conflicting (infeasible) and the two-water
(unbounded) scenarios resolve to `NotFound`. -/
theorem c2_witness :
    solve (fun _ => SolverResult.infeasible) conflictingProblem
      = DoughSolution.NotFound ∧
    solve (fun _ => SolverResult.infeasible) twoWaterProblem
      = DoughSolution.NotFound :=
  ⟨(c2_infeasible_not_found (fun _ => SolverResult.infeasible)
      (fun _ _ h => SolverResult.noConfusion h)).2.2.1,
   (c2_infeasible_not_found (fun _ => SolverResult.infeasible)
      (fun _ _ h => SolverResult.noConfusion h)).2.2.2.2⟩

/-! ## Claim C3 -/

/-- A `Found` outcome of `solve` under a contract-compliant solver comes
from a point satisfying the built problem. -/
lemma solve_found_inv (sv : Problem → SolverResult) (hsv : SolverOk sv)
    (P : DoughProblem) (d : Dough) (hd : solve sv P = DoughSolution.Found d) :
    ∃ x, satisfies (build P) x ∧ d = extract P x := by
  unfold solve at hd
  split at hd
  · next x heq =>
      refine ⟨x, hsv _ _ heq, ?_⟩
      cases hd
      rfl
  · cases hd

/-- The extracted ingredient masses sum to the value of the
all-coefficients-one mass row. -/
lemma extractIngs_sum (x : List ℚ) (l : List (Ingredient × Target)) :
    ∀ n, ((extractIngs x n l).map (fun p => p.2)).sum =
      ((aggTermsFrom (fun _ => some 1) n l).map
        (fun t => t.2 * x.getD t.1 0)).sum := by
  induction l with
  | nil => intro n; rfl
  | cons p rest ih =>
      intro n
      rcases p with ⟨i, t⟩
      simp [extractIngs, aggTermsFrom, ih (n + 1)]

/-- Claim C3: for every dough returned by `solve` as `Found`,
`total_mass()` is the sum of its ingredient masses, and when the problem's
mass target pins an absolute mass, `total_mass()` equals that pinned value
(exactly in this model, hence within the 0.1 % tolerance the claim
allows). -/
theorem c3_mass_balance (sv : Problem → SolverResult) (hsv : SolverOk sv)
    (P : DoughProblem) (d : Dough) (hd : solve sv P = DoughSolution.Found d) :
    d.total_mass = (d.ingredients.map (fun p => p.2)).sum ∧
    ∀ m, P.mass.mass = some m → approx_eq d.total_mass m := by
  obtain ⟨x, hx, rfl⟩ := solve_found_inv sv hsv P d hd
  refine ⟨rfl, ?_⟩
  intro m hm
  left
  have hb : boundSat P.mass.bound (x.getD totalMassVar 0) := hx.1.1
  have hbm : x.getD totalMassVar 0 = m := by
    have hfix : P.mass.bound = Bound.Fixed m := by
      unfold Target.bound
      rw [hm]
    rw [hfix] at hb
    exact hb
  have hc : (((totalMassVar, (-1 : ℚ)) ::
      aggTermsFrom (fun _ => some 1) 0 P.ingredients).map
        (fun t => t.2 * x.getD t.1 0)).sum = 0 := hx.2.1
  rw [List.map_cons, List.sum_cons] at hc
  have hc2 : (-1 : ℚ) * x.getD totalMassVar 0 +
      ((aggTermsFrom (fun _ => some 1) 0 P.ingredients).map
        (fun t => t.2 * x.getD t.1 0)).sum = 0 := hc
  have hsum := extractIngs_sum x P.ingredients 0
  show ((extractIngs x 0 P.ingredients).map (fun p => p.2)).sum = m
  rw [hsum]
  linarith

/-- The exact solution of the canonical starter problem at total mass
1000 g, hydratation `3/4`, salt ratio `1/50`, starter ratio `1/5`:
aggregates `[total mass, flour, water, leavener, salt, wheat proteins]`
then the four ingredient masses `[added flour, starter, added water,
salt]`. -/
def pointA : List ℚ :=
  [1000, 100000 / 177, 25000 / 59, 20000 / 177, 2000 / 177, 39400 / 531,
   260000 / 531, 20000 / 177, 205000 / 531, 2000 / 177]

/-- `pointA` satisfies the built starter problem. -/
lemma pointA_sat :
    satisfies (build (starterProblem 1000 (3 / 4) (1 / 50) (1 / 5))) pointA := by
  simp [satisfies, build, starterProblem, boundsSatFrom, boundSat,
    constraintsSat, constrSat, aggTermsFrom, ratioConstraintsFrom,
    ingredientVarsFrom, ingredientVar, Target.bound, Target.by_mass,
    Target.by_ratio, Target.free, white_flour, stiff_sourdough_starter,
    tap_water, table_salt, Ingredient.has_flour, Ingredient.has_water,
    Ingredient.has_salt, Ingredient.is_leavener, Ingredient.flour_ratio,
    refTotal, NOT_ZERO_THRESHOLD, totalMassVar, totalFlourVar, totalWaterVar,
    totalLeavenerVar, totalSaltVar, totalWheatProteinsVar, pointA]
  norm_num

/-- A contract-compliant solver that answers `optimal pointA` exactly on
the problems that `pointA` satisfies. -/
def pointASolver : Problem → SolverResult := fun p =>
  if satisfies p pointA then SolverResult.optimal pointA
  else SolverResult.infeasible

/-- `pointASolver` meets the solver contract. -/
lemma pointASolver_ok : SolverOk pointASolver := by
  intro p x h
  unfold pointASolver at h
  split at h
  · cases h
    assumption
  · cases h

/-- Under `pointASolver` the canonical starter problem resolves to the
dough extracted from `pointA`. -/
lemma pointA_solve :
    solve pointASolver (starterProblem 1000 (3 / 4) (1 / 50) (1 / 5))
      = DoughSolution.Found
          (extract (starterProblem 1000 (3 / 4) (1 / 50) (1 / 5)) pointA) := by
  unfold solve pointASolver
  rw [if_pos pointA_sat]

/-- Witness for C3: the canonical starter problem with mass pinned to
1000 g, solved at `pointA`. -/
theorem c3_witness :
    approx_eq
      (extract (starterProblem 1000 (3 / 4) (1 / 50) (1 / 5)) pointA).total_mass
      1000 :=
  (c3_mass_balance pointASolver pointASolver_ok
    (starterProblem 1000 (3 / 4) (1 / 50) (1 / 5)) _ pointA_solve).2 1000 rfl

/-! ## The canonical starter problem, solved symbolically -/

/-- The linear problem built from the canonical starter problem, computed
to a literal system.  Variables: the six aggregates, then added flour (6),
starter (7), added water (8), salt (9). -/
lemma build_starter (M hy sr r : ℚ) :
    build (starterProblem M hy sr r) = ⟨
      [⟨1, Bound.Fixed M⟩, ⟨1, Bound.Free⟩, ⟨1, Bound.Free⟩, ⟨1, Bound.Free⟩,
       ⟨1, Bound.Free⟩, ⟨1, Bound.Free⟩, ⟨1, Bound.Free⟩, ⟨2, Bound.Free⟩,
       ⟨3, Bound.Free⟩, ⟨4, Bound.Free⟩],
      [⟨[(0, -1), (6, 1), (7, 1), (8, 1), (9, 1)], 0⟩,
       ⟨[(1, -1), (6, 1), (7, 2 / 3)], 0⟩,
       ⟨[(2, -1), (7, 1 / 3), (8, 1)], 0⟩,
       ⟨[(3, -1), (7, 1)], 0⟩,
       ⟨[(4, -1), (9, 1)], 0⟩,
       ⟨[(5, -1), (6, 13 / 100), (7, 7 / 75)], 0⟩,
       ⟨[(1, hy), (2, -1)], 0⟩,
       ⟨[(1, sr), (4, -1)], 0⟩,
       ⟨[(1, r), (7, -1)], 0⟩]⟩ := by
  simp [build, starterProblem, ingredientVarsFrom, aggTermsFrom,
    ratioConstraintsFrom, ingredientVar, Target.bound, Target.by_mass,
    Target.by_ratio, Target.free, white_flour, stiff_sourdough_starter,
    tap_water, table_salt, Ingredient.has_flour, Ingredient.has_water,
    Ingredient.has_salt, Ingredient.is_leavener, Ingredient.flour_ratio,
    refTotal, NOT_ZERO_THRESHOLD, totalMassVar, totalFlourVar, totalWaterVar,
    totalLeavenerVar, totalSaltVar, totalWheatProteinsVar]
  norm_num

/-- Any point satisfying the built canonical starter problem obeys the
closed-form solution: the total flour `T` satisfies `T·(1+hy+sr) = M`, the
starter is `r·T`, the added flour `T - (2/3)·r·T`, the added water
`hy·T - (1/3)·r·T`, the salt `sr·T`, and the aggregates follow. -/
lemma starter_eqs (M hy sr r : ℚ) (x : List ℚ)
    (hx : satisfies (build (starterProblem M hy sr r)) x) :
    x.getD 0 0 = M ∧
    x.getD 1 0 * (1 + hy + sr) = M ∧
    x.getD 2 0 = hy * x.getD 1 0 ∧
    x.getD 4 0 = sr * x.getD 1 0 ∧
    x.getD 7 0 = r * x.getD 1 0 ∧
    x.getD 6 0 = x.getD 1 0 - 2 / 3 * (r * x.getD 1 0) ∧
    x.getD 8 0 = hy * x.getD 1 0 - 1 / 3 * (r * x.getD 1 0) ∧
    x.getD 9 0 = sr * x.getD 1 0 ∧
    x.getD 3 0 = r * x.getD 1 0 ∧
    x.getD 5 0 = 13 / 100 * x.getD 6 0 + 7 / 75 * x.getD 7 0 := by
  rw [build_starter] at hx
  obtain ⟨hb, hc⟩ := hx
  have e0 : x.getD 0 0 = M := hb.1
  have em : (-1 : ℚ) * x.getD 0 0 + (1 * x.getD 6 0 + (1 * x.getD 7 0 +
      (1 * x.getD 8 0 + (1 * x.getD 9 0 + 0)))) = 0 := hc.1
  have ef : (-1 : ℚ) * x.getD 1 0 + (1 * x.getD 6 0 +
      (2 / 3 * x.getD 7 0 + 0)) = 0 := hc.2.1
  have ew : (-1 : ℚ) * x.getD 2 0 + (1 / 3 * x.getD 7 0 +
      (1 * x.getD 8 0 + 0)) = 0 := hc.2.2.1
  have el : (-1 : ℚ) * x.getD 3 0 + (1 * x.getD 7 0 + 0) = 0 := hc.2.2.2.1
  have es : (-1 : ℚ) * x.getD 4 0 + (1 * x.getD 9 0 + 0) = 0 := hc.2.2.2.2.1
  have ep : (-1 : ℚ) * x.getD 5 0 + (13 / 100 * x.getD 6 0 +
      (7 / 75 * x.getD 7 0 + 0)) = 0 := hc.2.2.2.2.2.1
  have eh : hy * x.getD 1 0 + (-1 * x.getD 2 0 + 0) = 0 := hc.2.2.2.2.2.2.1
  have esr : sr * x.getD 1 0 + (-1 * x.getD 4 0 + 0) = 0 := hc.2.2.2.2.2.2.2.1
  have er : r * x.getD 1 0 + (-1 * x.getD 7 0 + 0) = 0 :=
    hc.2.2.2.2.2.2.2.2.1
  refine ⟨e0, ?_, by linarith, by linarith, by linarith, ?_, ?_, by linarith,
    by linarith, by linarith⟩
  · linear_combination em + e0 - ef - ew - es + eh + esr
  · linear_combination ef + 2 / 3 * er
  · linear_combination ew - eh + 1 / 3 * er

/-! ## Claim C4 -/

/-- Claim C4, as stated, is false on degenerate problems whose solution has
zero flour: with the canonical starter problem pinned to total mass `0`,
the all-zero point is feasible (indeed it is the unique solution, as the
last conjunct shows), a contract-compliant solver returns it as `Found`,
and the resulting dough's `hydratation()` — a division by zero flour — is
not within 0.1 % of the problem's hydratation input `3/4`. -/
theorem c4_counterexample :
    SolverOk zeroSolver ∧
    solve zeroSolver (starterProblem 0 (3 / 4) (1 / 50) (1 / 5)) =
      DoughSolution.Found
        (extract (starterProblem 0 (3 / 4) (1 / 50) (1 / 5)) zeroPoint) ∧
    ¬ approx_eq
        (extract (starterProblem 0 (3 / 4) (1 / 50) (1 / 5)) zeroPoint).hydratation
        (starterProblem 0 (3 / 4) (1 / 50) (1 / 5)).hydratation ∧
    (∀ x, satisfies (build (starterProblem 0 (3 / 4) (1 / 50) (1 / 5))) x →
      extract (starterProblem 0 (3 / 4) (1 / 50) (1 / 5)) x =
        extract (starterProblem 0 (3 / 4) (1 / 50) (1 / 5)) zeroPoint) := by
  have hzero :
      satisfies (build (starterProblem 0 (3 / 4) (1 / 50) (1 / 5))) zeroPoint := by
    rw [build_starter]
    refine ⟨⟨rfl, trivial, trivial, trivial, trivial, trivial, trivial,
      trivial, trivial, trivial, trivial⟩, ?_⟩
    norm_num [constraintsSat, constrSat, zeroPoint]
  refine ⟨zeroSolver_ok, ?_, ?_, ?_⟩
  · unfold solve zeroSolver
    rw [if_pos hzero]
  · show ¬ approx_eq ((0 : ℚ) / 0) (3 / 4)
    norm_num [approx_eq]
  · intro x hx
    obtain ⟨-, hT, hw, -, h7, h6, h8, h9, -, h5⟩ :=
      starter_eqs 0 (3 / 4) (1 / 50) (1 / 5) x hx
    have hT0 : x.getD 1 0 = 0 := by linarith
    rw [hT0] at hw h7 h6 h8 h9
    show Dough.mk (x.getD 1 0) (x.getD 2 0) (x.getD 5 0)
        [(1, x.getD 6 0), (2, x.getD 7 0), (3, x.getD 8 0), (4, x.getD 9 0)] =
      Dough.mk 0 0 0 [(1, 0), (2, 0), (3, 0), (4, 0)]
    have h6' : x.getD 6 0 = 0 := by linarith
    have h7' : x.getD 7 0 = 0 := by linarith
    have h8' : x.getD 8 0 = 0 := by linarith
    have h9' : x.getD 9 0 = 0 := by linarith
    have h2' : x.getD 2 0 = 0 := by linarith
    have h5' : x.getD 5 0 = 0 := by
      rw [h6', h7'] at h5
      linarith
    rw [hT0, h2', h5', h6', h7', h8', h9']

/-- Claim C4, amended with a nonzero solved flour mass: for every point the
solver accepts (hence every dough `solve` returns as `Found`), if the solved
total flour is nonzero then the dough's `hydratation()` equals the problem's
hydratation input and the solved total salt divided by the total flour
equals the problem's salt ratio — exactly in this model, hence within the
0.1 % tolerance the claim allows. -/
theorem c4_amended (P : DoughProblem) (x : List ℚ)
    (hx : satisfies (build P) x) (hfl : x.getD totalFlourVar 0 ≠ 0) :
    approx_eq (extract P x).hydratation P.hydratation ∧
    approx_eq (x.getD totalSaltVar 0 / x.getD totalFlourVar 0) P.salt_ratio := by
  have hhyd : P.hydratation * x.getD totalFlourVar 0 +
      ((-1 : ℚ) * x.getD totalWaterVar 0 + 0) = 0 := hx.2.2.2.2.2.2.2.1
  have hsalt : P.salt_ratio * x.getD totalFlourVar 0 +
      ((-1 : ℚ) * x.getD totalSaltVar 0 + 0) = 0 := hx.2.2.2.2.2.2.2.2.1
  constructor
  · left
    show x.getD totalWaterVar 0 / x.getD totalFlourVar 0 = P.hydratation
    rw [div_eq_iff hfl]
    linarith
  · left
    rw [div_eq_iff hfl]
    linarith

/-- Witness for C4 (amended): the canonical starter problem at total mass
1000 g solved by `pointA`, whose flour mass `100000/177` is nonzero. -/
theorem c4_witness :
    approx_eq
      (extract (starterProblem 1000 (3 / 4) (1 / 50) (1 / 5)) pointA).hydratation
      (3 / 4) ∧
    approx_eq (pointA.getD totalSaltVar 0 / pointA.getD totalFlourVar 0)
      (1 / 50) :=
  c4_amended (starterProblem 1000 (3 / 4) (1 / 50) (1 / 5)) pointA pointA_sat
    (by norm_num [pointA, totalFlourVar])

/-! ## Claim C9 -/

/-- The all-zero point satisfies the canonical starter problem whenever
the total mass target is pinned to `0`, whatever the hydratation, salt
ratio and starter ratio. -/
lemma zeroPoint_sat_starter (hy sr r : ℚ) :
    satisfies (build (starterProblem 0 hy sr r)) zeroPoint := by
  rw [build_starter]
  refine ⟨⟨rfl, trivial, trivial, trivial, trivial, trivial, trivial,
    trivial, trivial, trivial, trivial⟩, ?_⟩
  norm_num [constraintsSat, constrSat, zeroPoint]

/-- The exact solution of the starter problem at total mass 100 g with the
(unphysical) hydratation `-2`, salt ratio `1/50` and starter ratio `1/5`:
here `1 + hydratation + salt_ratio = -49/50 < 0`, so the total flour is
negative (`-5000/49`). -/
def pointD : List ℚ :=
  [100, -5000 / 49, 10000 / 49, -1000 / 49, -100 / 49, -1970 / 147,
   -13000 / 147, -1000 / 49, 31000 / 147, -100 / 49]

/-- The exact solution of the same negative-hydratation problem at starter
ratio `3/10`. -/
def pointE : List ℚ :=
  [100, -5000 / 49, 10000 / 49, -1500 / 49, -100 / 49, -660 / 49,
   -4000 / 49, -1500 / 49, 10500 / 49, -100 / 49]

/-- `pointD` satisfies the built negative-hydratation starter problem at
ratio `1/5`. -/
lemma pointD_sat :
    satisfies (build (starterProblem 100 (-2) (1 / 50) (1 / 5))) pointD := by
  rw [build_starter]
  refine ⟨⟨rfl, trivial, trivial, trivial, trivial, trivial, trivial,
    trivial, trivial, trivial, trivial⟩, ?_⟩
  norm_num [constraintsSat, constrSat, pointD]

/-- `pointE` satisfies the built negative-hydratation starter problem at
ratio `3/10`. -/
lemma pointE_sat :
    satisfies (build (starterProblem 100 (-2) (1 / 50) (3 / 10))) pointE := by
  rw [build_starter]
  refine ⟨⟨rfl, trivial, trivial, trivial, trivial, trivial, trivial,
    trivial, trivial, trivial, trivial⟩, ?_⟩
  norm_num [constraintsSat, constrSat, pointE]

/-- A contract-compliant solver that answers with `pointD` or `pointE`
when one of them satisfies the submitted problem. -/
def deSolver : Problem → SolverResult := fun p =>
  if satisfies p pointD then SolverResult.optimal pointD
  else if satisfies p pointE then SolverResult.optimal pointE
  else SolverResult.infeasible

/-- `deSolver` meets the (feasibility half of the) solver contract. -/
lemma deSolver_ok : SolverOk deSolver := by
  intro p x h
  unfold deSolver at h
  split at h
  · cases h
    assumption
  · split at h
    · cases h
      assumption
    · cases h

/-- `pointD` does not satisfy the negative-hydratation problem at ratio
`3/10` (its starter mass is `1/5` of its flour, not `3/10`). -/
lemma pointD_not_sat_E :
    ¬ satisfies (build (starterProblem 100 (-2) (1 / 50) (3 / 10))) pointD := by
  intro hx
  obtain ⟨-, -, -, -, h7, -⟩ :=
    starter_eqs 100 (-2) (1 / 50) (3 / 10) pointD hx
  norm_num [pointD] at h7

/-- Claim C9, as stated, is false: it carries no positivity assumptions.
First scenario: with the total mass pinned to `0` (a representable
degenerate target), both the ratio-`1/5` and the ratio-`3/10` problems
have the all-zero point as a solution, a contract-compliant solver
returns both as `Found`, and the added-flour mass is `0` in both doughs —
no strict decrease.  Second scenario: with total mass `100 > 0` but the
(unphysical) hydratation input `-2`, both problems are solved exactly,
and raising the starter ratio strictly *increases* the added-flour mass
(`-13000/147` to `-4000/49`). -/
theorem c9_counterexample :
    ((1 : ℚ) / 5 < 3 / 10 ∧
     SolverOk zeroSolver ∧
     solve zeroSolver (starterProblem 0 (3 / 4) (1 / 50) (1 / 5)) =
       DoughSolution.Found
         (extract (starterProblem 0 (3 / 4) (1 / 50) (1 / 5)) zeroPoint) ∧
     solve zeroSolver (starterProblem 0 (3 / 4) (1 / 50) (3 / 10)) =
       DoughSolution.Found
         (extract (starterProblem 0 (3 / 4) (1 / 50) (3 / 10)) zeroPoint) ∧
     ¬ (((extract (starterProblem 0 (3 / 4) (1 / 50) (3 / 10))
            zeroPoint).ingredients.getD 0 (0, 0)).2 <
        ((extract (starterProblem 0 (3 / 4) (1 / 50) (1 / 5))
            zeroPoint).ingredients.getD 0 (0, 0)).2)) ∧
    ((0 : ℚ) < 100 ∧
     SolverOk deSolver ∧
     solve deSolver (starterProblem 100 (-2) (1 / 50) (1 / 5)) =
       DoughSolution.Found
         (extract (starterProblem 100 (-2) (1 / 50) (1 / 5)) pointD) ∧
     solve deSolver (starterProblem 100 (-2) (1 / 50) (3 / 10)) =
       DoughSolution.Found
         (extract (starterProblem 100 (-2) (1 / 50) (3 / 10)) pointE) ∧
     ¬ (((extract (starterProblem 100 (-2) (1 / 50) (3 / 10))
            pointE).ingredients.getD 0 (0, 0)).2 <
        ((extract (starterProblem 100 (-2) (1 / 50) (1 / 5))
            pointD).ingredients.getD 0 (0, 0)).2)) := by
  constructor
  · refine ⟨by norm_num, zeroSolver_ok, ?_, ?_, ?_⟩
    · unfold solve zeroSolver
      rw [if_pos (zeroPoint_sat_starter (3 / 4) (1 / 50) (1 / 5))]
    · unfold solve zeroSolver
      rw [if_pos (zeroPoint_sat_starter (3 / 4) (1 / 50) (3 / 10))]
    · show ¬ ((0 : ℚ) < 0)
      exact lt_irrefl 0
  · refine ⟨by norm_num, deSolver_ok, ?_, ?_, ?_⟩
    · unfold solve deSolver
      rw [if_pos pointD_sat]
    · unfold solve deSolver
      rw [if_neg pointD_not_sat_E, if_pos pointE_sat]
    · show ¬ ((-4000 / 49 : ℚ) < -13000 / 147)
      norm_num

/-- Claim C9, amended with the two positivity hypotheses its
counterexample forces: in the canonical starter problem with total mass
pinned to `M > 0` and `1 + hydratation + salt_ratio > 0` (automatic for
the spec's input domain, where both ratios are non-negative), if the
starter's pinned ratio is increased from `r1` to `r2` and both problems
yield a `Found` dough under contract-compliant solver runs, then the
solved mass of the free added-flour ingredient (input position 0) and of
the free added-water ingredient (input position 2) each strictly
decrease. -/
theorem c9_amended (sv : Problem → SolverResult) (hsv : SolverOk sv)
    (M hy sr r1 r2 : ℚ) (d1 d2 : Dough)
    (hM : 0 < M) (hden : (0 : ℚ) < 1 + hy + sr) (hr : r1 < r2)
    (h1 : solve sv (starterProblem M hy sr r1) = DoughSolution.Found d1)
    (h2 : solve sv (starterProblem M hy sr r2) = DoughSolution.Found d2) :
    (d2.ingredients.getD 0 (0, 0)).2 < (d1.ingredients.getD 0 (0, 0)).2 ∧
    (d2.ingredients.getD 2 (0, 0)).2 < (d1.ingredients.getD 2 (0, 0)).2 := by
  obtain ⟨x1, hx1, rfl⟩ := solve_found_inv sv hsv _ d1 h1
  obtain ⟨x2, hx2, rfl⟩ := solve_found_inv sv hsv _ d2 h2
  obtain ⟨-, hT1, -, -, -, hf1, hw1, -, -, -⟩ :=
    starter_eqs M hy sr r1 x1 hx1
  obtain ⟨-, hT2, -, -, -, hf2, hw2, -, -, -⟩ :=
    starter_eqs M hy sr r2 x2 hx2
  have hTeq : x2.getD 1 0 = x1.getD 1 0 :=
    mul_right_cancel₀ (ne_of_gt hden) (hT2.trans hT1.symm)
  have hTpos : 0 < x1.getD 1 0 := by nlinarith
  rw [hTeq] at hf2 hw2
  have hprod : r1 * x1.getD 1 0 < r2 * x1.getD 1 0 :=
    mul_lt_mul_of_pos_right hr hTpos
  constructor
  · show x2.getD 6 0 < x1.getD 6 0
    linarith
  · show x2.getD 8 0 < x1.getD 8 0
    linarith

/-- The exact solution of the canonical starter problem at total mass
1000 g, hydratation `3/4`, salt ratio `1/50`, starter ratio `3/10`. -/
def pointB : List ℚ :=
  [1000, 100000 / 177, 25000 / 59, 10000 / 59, 2000 / 177, 4400 / 59,
   80000 / 177, 10000 / 59, 65000 / 177, 2000 / 177]

/-- `pointB` satisfies the built starter problem at ratio `3/10`. -/
lemma pointB_sat :
    satisfies (build (starterProblem 1000 (3 / 4) (1 / 50) (3 / 10))) pointB := by
  rw [build_starter]
  refine ⟨⟨rfl, trivial, trivial, trivial, trivial, trivial, trivial,
    trivial, trivial, trivial, trivial⟩, ?_⟩
  norm_num [constraintsSat, constrSat, pointB]

/-- A contract-compliant solver that answers with `pointA` or `pointB`
when one of them satisfies the submitted problem. -/
def abSolver : Problem → SolverResult := fun p =>
  if satisfies p pointA then SolverResult.optimal pointA
  else if satisfies p pointB then SolverResult.optimal pointB
  else SolverResult.infeasible

/-- `abSolver` meets the solver contract. -/
lemma abSolver_ok : SolverOk abSolver := by
  intro p x h
  unfold abSolver at h
  split at h
  · cases h
    assumption
  · split at h
    · cases h
      assumption
    · cases h

/-- `pointA` does not satisfy the starter problem at ratio `3/10` (its
starter mass is `1/5` of its flour, not `3/10`). -/
lemma pointA_not_sat_B :
    ¬ satisfies (build (starterProblem 1000 (3 / 4) (1 / 50) (3 / 10))) pointA := by
  intro hx
  obtain ⟨-, -, -, -, h7, -⟩ := starter_eqs 1000 (3 / 4) (1 / 50) (3 / 10) pointA hx
  norm_num [pointA] at h7

/-- Witness for C9 (amended): under `abSolver`, raising the starter ratio
from `1/5` to `3/10` at total mass 1000 g strictly decreases the added
flour (`260000/531` to `80000/177`) and the added water (`205000/531` to
`65000/177`). -/
theorem c9_witness :
    ((extract (starterProblem 1000 (3 / 4) (1 / 50) (3 / 10))
        pointB).ingredients.getD 0 (0, 0)).2 <
      ((extract (starterProblem 1000 (3 / 4) (1 / 50) (1 / 5))
        pointA).ingredients.getD 0 (0, 0)).2 ∧
    ((extract (starterProblem 1000 (3 / 4) (1 / 50) (3 / 10))
        pointB).ingredients.getD 2 (0, 0)).2 <
      ((extract (starterProblem 1000 (3 / 4) (1 / 50) (1 / 5))
        pointA).ingredients.getD 2 (0, 0)).2 :=
  c9_amended abSolver abSolver_ok 1000 (3 / 4) (1 / 50) (1 / 5) (3 / 10) _ _
    (by norm_num) (by norm_num) (by norm_num)
    (by unfold solve abSolver; rw [if_pos pointA_sat])
    (by unfold solve abSolver; rw [if_neg pointA_not_sat_B, if_pos pointB_sat])

/-! ## Claim C8 -/

/-- Every coefficient row an aggregate sum constraint collects refers to an
ingredient variable, whose identifier is at least `6 + n`. -/
lemma aggTermsFrom_idx (sel : Ingredient → Option ℚ)
    (l : List (Ingredient × Target)) :
    ∀ n e, e ∈ aggTermsFrom sel n l → 6 + n ≤ e.1 := by
  induction l with
  | nil =>
      intro n e h
      simp [aggTermsFrom] at h
  | cons p rest ih =>
      intro n e h
      rw [aggTermsFrom] at h
      rcases hsel : sel p.1 with _ | c <;> rw [hsel] at h
      · exact le_trans (by omega) (ih (n + 1) e h)
      · rcases List.mem_cons.mp h with rfl | h'
        · simp [ingredientVar]
        · exact le_trans (by omega) (ih (n + 1) e h')

/-- Every constraint the per-ingredient ratio loop emits has the shape
`r · reference - mass_k = 0` with `k ≥ n`. -/
lemma ratioConstraintsFrom_shape (l : List (Ingredient × Target)) :
    ∀ n c, c ∈ ratioConstraintsFrom n l →
      ∃ i rr k, c = (⟨[(refTotal i, rr), (ingredientVar k, -1)], 0⟩ : Constraint)
        ∧ n ≤ k := by
  induction l with
  | nil =>
      intro n c h
      simp [ratioConstraintsFrom] at h
  | cons p rest ih =>
      intro n c h
      rw [ratioConstraintsFrom] at h
      rcases hp : p.2.ratio with _ | r' <;> rw [hp] at h
      · obtain ⟨i, rr, k, hc, hk⟩ := ih (n + 1) c h
        exact ⟨i, rr, k, hc, by omega⟩
      · rcases List.mem_cons.mp h with rfl | h'
        · exact ⟨p.1, r', n, rfl, le_refl n⟩
        · obtain ⟨i, rr, k, hc, hk⟩ := ih (n + 1) c h'
          exact ⟨i, rr, k, hc, by omega⟩

/-- Claim C8, amended with a nonzero solved flour mass: the constraint
`total_wheat_proteins = r · total_flour` is among the built constraints if
and only if the problem's wheat-protein target carries the ratio `r`; and
in that case, for every point the solver accepts whose total flour is
nonzero, the extracted dough's `wheat_proteins_ratio()` equals `r` —
exactly in this model, hence within the 0.1 % tolerance the claim
allows. -/
theorem c8_wheat_ratio (P : DoughProblem) (r : ℚ) :
    ((⟨[(totalFlourVar, r), (totalWheatProteinsVar, -1)], 0⟩ : Constraint) ∈
        (build P).constraints ↔ P.wheat_proteins.ratio = some r) ∧
    ∀ x, satisfies (build P) x → P.wheat_proteins.ratio = some r →
      x.getD totalFlourVar 0 ≠ 0 →
      approx_eq (extract P x).wheat_proteins_ratio r := by
  constructor
  · constructor
    · intro hmem
      simp only [build, List.mem_cons, List.mem_append] at hmem
      rcases hmem with h | h | h | h | h | h | h | h | h | h
      · simp [Constraint.mk.injEq, totalFlourVar, totalMassVar] at h
      · rw [Constraint.mk.injEq] at h
        obtain ⟨hlist, -⟩ := h
        rw [List.cons_eq_cons] at hlist
        obtain ⟨-, htail⟩ := hlist
        have h5 : ((totalWheatProteinsVar, (-1 : ℚ))) ∈
            aggTermsFrom (fun i => if i.has_flour then some i.flour_ratio
              else none) 0 P.ingredients := by
          rw [← htail]
          simp
        have := aggTermsFrom_idx _ _ 0 _ h5
        simp [totalWheatProteinsVar] at this
      · simp [Constraint.mk.injEq, totalFlourVar, totalWaterVar] at h
      · simp [Constraint.mk.injEq, totalFlourVar, totalLeavenerVar] at h
      · simp [Constraint.mk.injEq, totalFlourVar, totalSaltVar] at h
      · simp [Constraint.mk.injEq, totalFlourVar, totalWheatProteinsVar] at h
      · simp [Constraint.mk.injEq, totalWaterVar, totalWheatProteinsVar] at h
      · simp [Constraint.mk.injEq, totalSaltVar, totalWheatProteinsVar] at h
      · rcases hw : P.wheat_proteins.ratio with _ | r' <;> rw [hw] at h
        · simp at h
        · simp [Constraint.mk.injEq] at h
          rw [h]
      · obtain ⟨i, rr, k, hc, -⟩ := ratioConstraintsFrom_shape P.ingredients 0 _ h
        rw [Constraint.mk.injEq] at hc
        obtain ⟨hlist, -⟩ := hc
        simp [ingredientVar, totalWheatProteinsVar] at hlist
        omega
    · intro hr
      apply List.mem_cons_of_mem
      apply List.mem_cons_of_mem
      apply List.mem_cons_of_mem
      apply List.mem_cons_of_mem
      apply List.mem_cons_of_mem
      apply List.mem_cons_of_mem
      apply List.mem_cons_of_mem
      apply List.mem_cons_of_mem
      apply List.mem_append_left
      rw [hr]
      simp
  · intro x hx hr hfl
    have h9 := hx.2.2.2.2.2.2.2.2.2
    rw [hr] at h9
    have hwc : r * x.getD totalFlourVar 0 +
        ((-1 : ℚ) * x.getD totalWheatProteinsVar 0 + 0) = 0 := h9.1
    left
    show x.getD totalWheatProteinsVar 0 / x.getD totalFlourVar 0 = r
    rw [div_eq_iff hfl]
    linarith

/-- Claim C8's ratio-satisfaction part, as stated, is false on degenerate
problems whose solution has zero flour: the wheat-protein scenario pinned
to total mass `0` keeps its ratio target `3/20`, the all-zero point is
feasible and returned as `Found` by a contract-compliant solver, yet the
dough's `wheat_proteins_ratio()` — a division by zero flour — is not
within 0.1 % of `3/20`. -/
theorem c8_counterexample :
    (wheatProblem 0).wheat_proteins.ratio = some (3 / 20) ∧
    SolverOk zeroSolver ∧
    solve zeroSolver (wheatProblem 0) =
      DoughSolution.Found (extract (wheatProblem 0) zeroPoint) ∧
    ¬ approx_eq
        (extract (wheatProblem 0) zeroPoint).wheat_proteins_ratio (3 / 20) := by
  have hzero : satisfies (build (wheatProblem 0)) zeroPoint := by
    simp [satisfies, build, wheatProblem, boundsSatFrom, boundSat,
      constraintsSat, constrSat, aggTermsFrom, ratioConstraintsFrom,
      ingredientVarsFrom, ingredientVar, Target.bound, Target.by_mass,
      Target.by_ratio, Target.free, white_flour, gluten_powder,
      stiff_sourdough_starter, tap_water, table_salt, Ingredient.has_flour,
      Ingredient.has_water, Ingredient.has_salt, Ingredient.is_leavener,
      Ingredient.flour_ratio, refTotal, NOT_ZERO_THRESHOLD, totalMassVar,
      totalFlourVar, totalWaterVar, totalLeavenerVar, totalSaltVar,
      totalWheatProteinsVar, zeroPoint]
    norm_num
  refine ⟨rfl, zeroSolver_ok, ?_, ?_⟩
  · unfold solve zeroSolver
    rw [if_pos hzero]
  · show ¬ approx_eq ((0 : ℚ) / 0) (3 / 20)
    norm_num [approx_eq]

/-- The exact solution of the wheat-protein scenario at total mass 750 g:
aggregates, then white flour, gluten powder, starter, water and salt. -/
def pointC : List ℚ :=
  [750, 75000 / 187, 63750 / 187, 15000 / 187, 1500 / 187, 11250 / 187,
   3695000 / 11033, 140000 / 11033, 15000 / 187, 58750 / 187, 1500 / 187]

/-- `pointC` satisfies the built wheat-protein problem at total mass
750 g. -/
lemma pointC_sat : satisfies (build (wheatProblem 750)) pointC := by
  simp [satisfies, build, wheatProblem, boundsSatFrom, boundSat,
    constraintsSat, constrSat, aggTermsFrom, ratioConstraintsFrom,
    ingredientVarsFrom, ingredientVar, Target.bound, Target.by_mass,
    Target.by_ratio, Target.free, white_flour, gluten_powder,
    stiff_sourdough_starter, tap_water, table_salt, Ingredient.has_flour,
    Ingredient.has_water, Ingredient.has_salt, Ingredient.is_leavener,
    Ingredient.flour_ratio, refTotal, NOT_ZERO_THRESHOLD, totalMassVar,
    totalFlourVar, totalWaterVar, totalLeavenerVar, totalSaltVar,
    totalWheatProteinsVar, pointC]
  norm_num

/-- Witness for C8 (amended): the wheat-protein scenario at 750 g solved by
`pointC`, whose flour mass `75000/187` is nonzero, meets the `3/20`
wheat-protein ratio target. -/
theorem c8_witness :
    approx_eq (extract (wheatProblem 750) pointC).wheat_proteins_ratio
      (3 / 20) :=
  (c8_wheat_ratio (wheatProblem 750) (3 / 20)).2 pointC pointC_sat rfl
    (by norm_num [pointC, totalFlourVar])

end BreadWorld
